import Mathlib

/-!
Shallow embedding of the filtering / pagination / column-visibility engine of
`src/src/index.tsx` (the `ReactTable` component; the file holds two revisions of
the component, referred to below as the first and the second implementation).

JavaScript dynamic values are modelled by the inductive `JSValue`; a row is an
association list from field name to `JSValue` (JS object property access on a
missing key yields `undefined`).  Fallible JS operations (method calls that can
raise `TypeError`) are modelled with `Except String`.
-/

set_option autoImplicit false

namespace ReactTable

/-- A JavaScript scalar value as used by the component: strings, (integer)
numbers, booleans, `null` and `undefined`. -/
inductive JSValue where
  | str : String → JSValue
  | num : Int → JSValue
  | bool : Bool → JSValue
  | null : JSValue
  | undefined : JSValue
deriving DecidableEq, Repr

/-- A row of data: a JS object, i.e. an ordered association list from property
name to value. -/
abbrev Row := List (String × JSValue)

/-- JS property read `item[k]`: the value stored at the first occurrence of key
`k`, or `undefined` when the key is absent. -/
def rowGet (item : Row) (k : String) : JSValue :=
  match item.find? (fun kv => kv.1 == k) with
  | some kv => kv.2
  | none => .undefined

/-- `Object.keys(item)`: the list of property names of a row. -/
def rowKeys (item : Row) : List String := item.map Prod.fst

/-- JS `String(v)` conversion. -/
def jsToString : JSValue → String
  | .str s => s
  | .num n => toString n
  | .bool true => "true"
  | .bool false => "false"
  | .null => "null"
  | .undefined => "undefined"

/-- JS truthiness (`!!v` / `Boolean(v)`): `false`, `0`, the empty string,
`null` and `undefined` are falsy; everything else is truthy. -/
def jsTruthy : JSValue → Bool
  | .str s => !(s == "")
  | .num n => !(n == 0)
  | .bool b => b
  | .null => false
  | .undefined => false

/-- ASCII lower-casing of a string, character by character (JS
`toLowerCase` restricted to the ASCII range used by this model). -/
def strToLower (s : String) : String :=
  ⟨s.data.map Char.toLower⟩

/-- The JS method call `v.toLowerCase()`: succeeds (with the lower-cased
string) only when `v` is a string; on any other value the method does not
exist and a `TypeError` is raised. -/
def jsMethodToLower : JSValue → Except String String
  | .str s => .ok (strToLower s)
  | _ => .error "TypeError: appliedFilter.toLowerCase is not a function"

instance {ε α : Type} [DecidableEq ε] [DecidableEq α] :
    DecidableEq (Except ε α) := fun x y =>
  match x, y with
  | .ok a, .ok b =>
      if h : a = b then .isTrue (by simp [h]) else .isFalse (by simp [h])
  | .ok _, .error _ => .isFalse (by simp)
  | .error _, .ok _ => .isFalse (by simp)
  | .error e, .error f =>
      if h : e = f then .isTrue (by simp [h]) else .isFalse (by simp [h])

/-- Helper for JS `String.prototype.includes`: `listIncludes target l` is true
iff `target` occurs contiguously inside `l`. -/
def listIncludes (target : List Char) : List Char → Bool
  | [] => target.isEmpty
  | l@(_ :: rest) => target.isPrefixOf l || listIncludes target rest

/-- JS `s.includes(target)`: substring test. -/
def strIncludes (s target : String) : Bool :=
  listIncludes target.toList s.toList

/-- A filter definition (`interface Filter`); only the fields the engine reads
are modelled: `type`, `dataIndex`, and whether an `onFilterChange` callback was
supplied (the callback itself is external to the engine). -/
structure Filter where
  type : String
  dataIndex : String
  hasOnFilterChange : Bool := false
deriving DecidableEq, Repr

/-- The applied-filters state: a JS object mapping dataIndex (or the reserved
key `"globalSearch"`) to the applied value. -/
abbrev AppliedFilters := List (String × JSValue)

/-- `getFilters().filter(item => item.dataIndex === filter)[0]`: the first
filter definition whose `dataIndex` equals the key, if any. -/
def findFilter (filters : List Filter) (key : String) : Option Filter :=
  filters.find? (fun f => f.dataIndex == key)

/-- The per-key matching rule of the filtering effect (lines 136-157 of the
first implementation, identically lines 492-511 of the second):
look up the filter definition for the key (falling back to type
`"globalSearch"` when none exists), then dispatch on the type string.
The default (global-search) branch evaluates `appliedFilter.toLowerCase()`,
which raises a `TypeError` when the applied value is not a string. -/
def matchOne (filters : List Filter) (item : Row) (key : String)
    (appliedFilter : JSValue) : Except String Bool :=
  let fdType : String :=
    match findFilter filters key with
    | some fd => fd.type
    | none => "globalSearch"
  match fdType with
  | "select" =>
      .ok (jsToString (rowGet item key) == jsToString appliedFilter)
  | "input" =>
      .ok (strIncludes (strToLower (jsToString (rowGet item key)))
        (strToLower (jsToString appliedFilter)))
  | "toggle" =>
      .ok (jsTruthy (rowGet item key) == jsTruthy appliedFilter)
  | _ =>
      match jsMethodToLower appliedFilter with
      | .ok lv =>
          .ok ((rowKeys item).any fun k =>
            strIncludes (strToLower (jsToString (rowGet item k))) lv)
      | .error e => .error e

/-- `Object.keys(appliedFilters).every(filter => ...)`: conjunction of the
per-key matches, left to right, short-circuiting on the first `false` (and
propagating a raised `TypeError`). -/
def allMatch (filters : List Filter) (item : Row) :
    AppliedFilters → Except String Bool
  | [] => .ok true
  | (k, v) :: rest => do
    let b ← matchOne filters item k v
    if b then allMatch filters item rest else .ok false

/-- The filtering effect `data.filter(item => Object.keys(appliedFilters)
.every(...))`: keeps, in order, exactly the rows every applied filter matches;
a `TypeError` raised while testing a row propagates out. -/
def applyFilters (filters : List Filter) (af : AppliedFilters) :
    List Row → Except String (List Row)
  | [] => .ok []
  | r :: rs => do
    let b ← allMatch filters r af
    let rest ← applyFilters filters af rs
    .ok (if b then r :: rest else rest)

/-- Pure counterpart of `matchOne`, defined whenever no `TypeError` occurs
(errors are read as a non-match; used only to state theorems under the
well-typedness hypothesis below). -/
def matchB (filters : List Filter) (item : Row) (key : String)
    (v : JSValue) : Bool :=
  match matchOne filters item key v with
  | .ok b => b
  | .error _ => false

/-- The spec's AppliedFilters typing invariant: every applied value is a string
unless its key resolves to a filter definition of one of the three explicit
types (select / input / toggle) - exactly the condition under which the
filtering effect cannot raise. -/
def valuesWellTyped (filters : List Filter) (af : AppliedFilters) : Bool :=
  af.all fun kv =>
    (match findFilter filters kv.1 with
      | some fd => fd.type == "select" || fd.type == "input" || fd.type == "toggle"
      | none => false) ||
    (match kv.2 with
      | .str _ => true
      | _ => false)

/-- JS object spread `{ ...prev, [key]: value }`: replaces the value at `key`
in place when the key already exists, otherwise appends the pair. -/
def afInsert (af : AppliedFilters) (key : String) (v : JSValue) :
    AppliedFilters :=
  if af.any (fun kv => kv.1 == key) then
    af.map (fun kv => if kv.1 == key then (kv.1, v) else kv)
  else
    af ++ [(key, v)]

/-- `handleFilterChange` of the first implementation (lines 163-179): it looks
up `getFilters().filter(item => item.dataIndex === key)[0]` and then reads
`filterData.onFilterChange`.  When no filter definition has the given
`dataIndex` the lookup is `undefined` and the property read raises a
`TypeError`; otherwise, the callback (if present) replaces the default
merge into the applied filters.  The result is the new applied-filters
state. -/
def handleFilterChange (filters : List Filter) (af : AppliedFilters)
    (filterValue : JSValue) (key : String) : Except String AppliedFilters :=
  match findFilter filters key with
  | none =>
      .error "TypeError: cannot read onFilterChange of undefined"
  | some fd =>
      if fd.hasOnFilterChange then
        .ok af
      else
        .ok (afInsert af key filterValue)

/-- A column definition (`interface Column`, second implementation: `visible`
may hold any JS value). -/
structure Column where
  key : String
  title : String
  dataIndex : String
  visible : JSValue := .undefined
deriving DecidableEq, Repr

/-- `const falsy = [false, '0', 'false', 0]` (line 469). -/
def falsy : List JSValue := [.bool false, .str "0", .str "false", .num 0]

/-- Column visibility of the second implementation (lines 626 and 640):
a column is rendered iff `!falsy.includes(column.visible)` (JS `includes`
compares with strict equality). -/
def isVisible (c : Column) : Bool :=
  !(falsy.contains c.visible)

/-- `Math.floor(renderData.length / pagination.pageLength)` (line 357): the
number of navigable pages; `Nat` division is floor division. -/
def pageCount (n pageLength : Nat) : Nat :=
  n / pageLength

/-- The rendered page numbers
`Array.from(Array(pageCount).keys()).map(p => p + 1)` (lines 357-358):
the 1-based page numbers `1 .. pageCount`. -/
def pageNumbers (n pageLength : Nat) : List Nat :=
  (List.range (pageCount n pageLength)).map (fun p => p + 1)

/-- `renderData.slice((currentPage - 1) * pageLength, pageLength * currentPage)`
(line 212).  For non-negative indices, JS `slice(start, end)` returns the
elements at positions `[start, end)` clipped to the array, i.e.
`drop start (take end ·)`. -/
def paginatedData (rows : List Row) (currentPage pageLength : Nat) :
    List Row :=
  (rows.take (pageLength * currentPage)).drop ((currentPage - 1) * pageLength)

/-- Truthiness of the optional `rowKey` prop (a JS string or `undefined`):
truthy iff present and non-empty. -/
def optTruthy : Option String → Bool
  | some s => !(s == "")
  | none => false

/-- `getRowKey` (line 192 / lines 525-527):
`rowKey ? item[rowKey] : item['key'] ? item['key'] : null`. -/
def getRowKey (rowKey : Option String) (item : Row) : JSValue :=
  if optTruthy rowKey then
    rowGet item (rowKey.getD "")
  else if jsTruthy (rowGet item "key") then
    rowGet item "key"
  else
    .null

/-- Presence test of a field in a row (used only to state the spec's version
of the row-key contract). -/
def rowHas (item : Row) (k : String) : Bool :=
  (item.find? (fun kv => kv.1 == k)).isSome

/-- The row-key contract as the spec words it (for comparison with
`getRowKey`): `row[rowKey]` if `rowKey` is set and the field is PRESENT in the
row, else `row["key"]` if that field is PRESENT, else `null`. -/
def specRowKey (rowKey : Option String) (item : Row) : JSValue :=
  if optTruthy rowKey && rowHas item (rowKey.getD "") then
    rowGet item (rowKey.getD "")
  else if rowHas item "key" then
    rowGet item "key"
  else
    .null

/-! ### Helper lemmas -/

/-- The empty target is a substring of every string. -/
theorem listIncludes_nil (l : List Char) : listIncludes [] l = true := by
  cases l <;> simp [listIncludes, List.isPrefixOf]

/-- `strIncludes s "" = true` for every `s`. -/
theorem strIncludes_empty (s : String) : strIncludes s "" = true := by
  simp [strIncludes, listIncludes_nil]

/-- A slice `drop s (take (s + n) l)` reads, pointwise, the elements of `l`
at positions `s, s+1, …, s+n-1` (and `none` past the window). -/
theorem slice_window {α : Type} (l : List α) (s n i : Nat) :
    ((l.take (s + n)).drop s)[i]? = if i < n then l[s + i]? else none := by
  rw [List.getElem?_drop]
  by_cases hi : i < n
  · rw [List.getElem?_take_of_lt (by omega)]
    simp [hi]
  · rw [if_neg hi]
    apply List.getElem?_eq_none
    calc (l.take (s + n)).length ≤ s + n := by
          simp [List.length_take]
      _ ≤ s + i := by omega

/-- The per-element reading of `valuesWellTyped`. -/
theorem wellTyped_mem {filters : List Filter} {af : AppliedFilters}
    (h : valuesWellTyped filters af = true) {kv : String × JSValue}
    (hkv : kv ∈ af) :
    (∃ fd, findFilter filters kv.1 = some fd ∧
      (fd.type = "select" ∨ fd.type = "input" ∨ fd.type = "toggle")) ∨
    (∃ s, kv.2 = JSValue.str s) := by
  unfold valuesWellTyped at h
  rw [List.all_eq_true] at h
  have h2 := h kv hkv
  rw [Bool.or_eq_true] at h2
  rcases h2 with h2 | h2
  · left
    cases hf : findFilter filters kv.1 with
    | none => rw [hf] at h2; simp at h2
    | some fd =>
      rw [hf] at h2
      refine ⟨fd, rfl, ?_⟩
      simp at h2
      tauto
  · right
    cases hv : kv.2 <;> rw [hv] at h2 <;> simp_all

/-- A well-typed applied value never makes `matchOne` raise. -/
theorem matchOne_ne_error (filters : List Filter) (item : Row) (key : String)
    (v : JSValue)
    (h : (∃ fd, findFilter filters key = some fd ∧
            (fd.type = "select" ∨ fd.type = "input" ∨ fd.type = "toggle")) ∨
         (∃ s, v = JSValue.str s))
    (msg : String) : matchOne filters item key v ≠ .error msg := by
  rcases h with ⟨fd, hf, ht⟩ | ⟨s, rfl⟩
  · rcases ht with h2 | h2 | h2 <;> simp [matchOne, hf, h2]
  · unfold matchOne
    split <;> simp [jsMethodToLower]
    split <;> simp

/-- A non-raising `matchOne` computes exactly its pure counterpart
`matchB`. -/
theorem matchOne_eq_ok_matchB (filters : List Filter) (item : Row)
    (key : String) (v : JSValue)
    (h : ∀ msg, matchOne filters item key v ≠ .error msg) :
    matchOne filters item key v = .ok (matchB filters item key v) := by
  unfold matchB
  cases he : matchOne filters item key v with
  | error e => exact absurd he (h e)
  | ok b => rfl

/-- Under the typing invariant, the `every`-conjunction over the applied
filters computes `List.all` of the pure matches. -/
theorem allMatch_eq_ok (filters : List Filter) (af : AppliedFilters)
    (h : valuesWellTyped filters af = true) (item : Row) :
    allMatch filters item af =
      .ok (af.all fun kv => matchB filters item kv.1 kv.2) := by
  induction af with
  | nil => rfl
  | cons kv rest ih =>
    obtain ⟨k, v⟩ := kv
    have hkv := wellTyped_mem h (List.mem_cons_self (k, v) rest)
    have hrest : valuesWellTyped filters rest = true := by
      unfold valuesWellTyped at h ⊢
      rw [List.all_cons, Bool.and_eq_true] at h
      exact h.2
    have hm := matchOne_eq_ok_matchB filters item k v
      (matchOne_ne_error filters item k v hkv)
    simp only [allMatch, hm, List.all_cons]
    cases hb : matchB filters item k v
    · simp only [Bool.false_and]
      rfl
    · simp only [Bool.true_and]
      exact ih hrest

/-! ### Claim theorems -/

/-- C1: under the spec's AppliedFilters typing invariant, the filtering effect
returns exactly the subsequence of the input rows, in original order, whose
every applied key individually matches its filter rule (logical AND), and an
empty AppliedFilters mapping returns all rows unchanged. -/
theorem c1_apply_and_semantics (filters : List Filter) (af : AppliedFilters)
    (rows : List Row) (h : valuesWellTyped filters af = true) :
    applyFilters filters af rows =
      .ok (rows.filter fun r => af.all fun kv => matchB filters r kv.1 kv.2) ∧
    applyFilters filters [] rows = .ok rows := by
  constructor
  · induction rows with
    | nil => rfl
    | cons r rs ih =>
      simp only [applyFilters, allMatch_eq_ok filters af h r, ih,
        List.filter_cons]
      cases hb : af.all fun kv => matchB filters r kv.1 kv.2 <;> rfl
  · induction rows with
    | nil => rfl
    | cons r rs ih =>
      simp only [applyFilters, ih]
      rfl

/-- C1 witness (the spec's §8 scenario): a toggle filter on `active` applied
with `true` keeps exactly the first of the two rows, and the empty mapping
keeps both rows unchanged. -/
theorem c1_apply_and_semantics_witness :
    applyFilters [⟨"toggle", "active", false⟩]
      [("active", JSValue.bool true)]
      [[("id", JSValue.num 1), ("active", JSValue.bool true)],
       [("id", JSValue.num 2), ("active", JSValue.bool false)]] =
      .ok [[("id", JSValue.num 1), ("active", JSValue.bool true)]] ∧
    applyFilters [⟨"toggle", "active", false⟩] []
      [[("id", JSValue.num 1), ("active", JSValue.bool true)],
       [("id", JSValue.num 2), ("active", JSValue.bool false)]] =
      .ok [[("id", JSValue.num 1), ("active", JSValue.bool true)],
           [("id", JSValue.num 2), ("active", JSValue.bool false)]] := by
  have h := c1_apply_and_semantics [⟨"toggle", "active", false⟩]
    [("active", JSValue.bool true)]
    [[("id", JSValue.num 1), ("active", JSValue.bool true)],
     [("id", JSValue.num 2), ("active", JSValue.bool false)]] (by decide)
  exact ⟨h.1.trans (by decide), h.2⟩

/-- C3: a column is hidden (`isVisible = false`) iff its `visible` attribute is
a member of the explicit falsy set `{false, "0", "false", 0}`; every other
value - `undefined` (absent), `null`, `"1"`, `1`, the empty string, non-empty
strings - makes the column visible. -/
theorem c3_isVisible_falsy_set (c : Column) :
    (isVisible c = false ↔
      (c.visible = .bool false ∨ c.visible = .str "0" ∨
        c.visible = .str "false" ∨ c.visible = .num 0)) ∧
    isVisible ⟨"k", "t", "d", .undefined⟩ = true ∧
    isVisible ⟨"k", "t", "d", .null⟩ = true ∧
    isVisible ⟨"k", "t", "d", .str "1"⟩ = true ∧
    isVisible ⟨"k", "t", "d", .num 1⟩ = true ∧
    isVisible ⟨"k", "t", "d", .str ""⟩ = true := by
  refine ⟨?_, by decide, by decide, by decide, by decide, by decide⟩
  cases h : c.visible
  case str s =>
    simp_all [isVisible, falsy, List.contains]
    tauto
  all_goals simp_all [isVisible, falsy, List.contains]

/-- C4: `pageCount n len` is the floor of `n / len` (characterised by
`q * len ≤ n < (q + 1) * len`), and the page number `pageCount + 1` of a
trailing partial page is never among the rendered navigable page numbers. -/
theorem c4_pageCount_floor (n len : Nat) (h : 1 ≤ len) :
    pageCount n len * len ≤ n ∧
    n < (pageCount n len + 1) * len ∧
    (pageCount n len + 1) ∉ pageNumbers n len := by
  have h1 : pageCount n len * len + n % len = n := by
    simp only [pageCount]
    rw [Nat.mul_comm]
    exact Nat.div_add_mod n len
  have h2 : n % len < len := Nat.mod_lt _ (by omega)
  have h3 : (pageCount n len + 1) * len = pageCount n len * len + len := by
    ring
  refine ⟨?_, ?_, ?_⟩
  · omega
  · omega
  · intro hmem
    simp only [pageNumbers, List.mem_map, List.mem_range] at hmem
    omega

/-- C4 witness: at 125 filtered rows and page length 50, the page count is the
floor value 2 (so page 3, which would hold rows 100-124, is not navigable). -/
theorem c4_pageCount_floor_witness :
    pageCount 125 50 * 50 ≤ 125 ∧
    125 < (pageCount 125 50 + 1) * 50 ∧
    (pageCount 125 50 + 1) ∉ pageNumbers 125 50 :=
  c4_pageCount_floor 125 50 (by decide)

/-- C5: for `currentPage = p ≥ 1` and `pageLength = len`, the page slice holds
exactly the rows at zero-indexed positions `[(p-1)*len, p*len)`, clipped to the
available range (pointwise: entry `i` of the slice is row `(p-1)*len + i` when
`i < len`, and absent otherwise), and a window lying wholly beyond the row
count yields the empty sequence. -/
theorem c5_paginatedData_window (rows : List Row) (p len : Nat)
    (hp : 1 ≤ p) :
    (∀ i : Nat, (paginatedData rows p len)[i]? =
      if i < len then rows[(p - 1) * len + i]? else none) ∧
    (rows.length ≤ (p - 1) * len → paginatedData rows p len = []) := by
  obtain ⟨q, rfl⟩ : ∃ q, p = q + 1 := ⟨p - 1, by omega⟩
  have hpd : paginatedData rows (q + 1) len =
      (rows.take (q * len + len)).drop (q * len) := by
    simp only [paginatedData, Nat.add_sub_cancel]
    have : len * (q + 1) = q * len + len := by ring
    rw [this]
  constructor
  · intro i
    rw [hpd, slice_window, Nat.add_sub_cancel]
  · intro hlen
    rw [hpd]
    apply List.drop_eq_nil_of_le
    calc (rows.take (q * len + len)).length ≤ rows.length := by
          simp [List.length_take]
      _ ≤ q * len := by simpa using hlen
      _ ≤ q * len := le_refl _

/-- C5 witness: with 5 rows, page 2 of length 2 holds exactly rows 2 and 3. -/
theorem c5_paginatedData_window_witness :
    (∀ i : Nat,
      (paginatedData [[("a", JSValue.num 0)], [("a", JSValue.num 1)],
        [("a", JSValue.num 2)], [("a", JSValue.num 3)],
        [("a", JSValue.num 4)]] 2 2)[i]? =
      if i < 2 then
        ([[("a", JSValue.num 0)], [("a", JSValue.num 1)],
          [("a", JSValue.num 2)], [("a", JSValue.num 3)],
          [("a", JSValue.num 4)]] : List Row)[(2 - 1) * 2 + i]?
      else none) ∧
    (([[("a", JSValue.num 0)], [("a", JSValue.num 1)],
        [("a", JSValue.num 2)], [("a", JSValue.num 3)],
        [("a", JSValue.num 4)]] : List Row).length ≤ (2 - 1) * 2 →
      paginatedData [[("a", JSValue.num 0)], [("a", JSValue.num 1)],
        [("a", JSValue.num 2)], [("a", JSValue.num 3)],
        [("a", JSValue.num 4)]] 2 2 = []) :=
  c5_paginatedData_window _ 2 2 (by decide)

/-- C7: when the applied key's (first) filter definition has type `select`, a
row matches iff the row field's value converted to string is exactly,
case-sensitively, equal to the applied value converted to string. -/
theorem c7_select_exact (filters : List Filter) (item : Row) (key : String)
    (v : JSValue) (fd : Filter) (h1 : findFilter filters key = some fd)
    (h2 : fd.type = "select") :
    matchOne filters item key v =
      .ok (jsToString (rowGet item key) == jsToString v) ∧
    (matchOne filters item key v = .ok true ↔
      jsToString (rowGet item key) = jsToString v) := by
  have hm : matchOne filters item key v =
      .ok (jsToString (rowGet item key) == jsToString v) := by
    simp [matchOne, h1, h2]
  refine ⟨hm, ?_⟩
  rw [hm]
  simp

/-- C7 witness: a select filter on `status` applied with `"active"` matches
`{status: "active"}` but not `{status: "Active"}`. -/
theorem c7_select_exact_witness :
    matchOne [⟨"select", "status", false⟩] [("status", JSValue.str "active")]
      "status" (JSValue.str "active") = .ok true ∧
    matchOne [⟨"select", "status", false⟩] [("status", JSValue.str "Active")]
      "status" (JSValue.str "active") = .ok false := by
  constructor
  · exact ((c7_select_exact [⟨"select", "status", false⟩]
      [("status", JSValue.str "active")] "status" (JSValue.str "active")
      ⟨"select", "status", false⟩ (by decide) rfl).1).trans (by decide)
  · exact ((c7_select_exact [⟨"select", "status", false⟩]
      [("status", JSValue.str "Active")] "status" (JSValue.str "active")
      ⟨"select", "status", false⟩ (by decide) rfl).1).trans (by decide)

/-- C8: when the applied key's (first) filter definition has type `input`, a
row matches iff the row field's value, stringified and lower-cased, contains
the applied value stringified and lower-cased as a substring; in particular,
an empty applied string matches every row. -/
theorem c8_input_substring (filters : List Filter) (item : Row) (key : String)
    (v : JSValue) (fd : Filter) (h1 : findFilter filters key = some fd)
    (h2 : fd.type = "input") :
    matchOne filters item key v =
      .ok (strIncludes (strToLower (jsToString (rowGet item key)))
        (strToLower (jsToString v))) ∧
    matchOne filters item key (.str "") = .ok true := by
  have hm : ∀ w : JSValue, matchOne filters item key w =
      .ok (strIncludes (strToLower (jsToString (rowGet item key)))
        (strToLower (jsToString w))) := by
    intro w
    simp [matchOne, h1, h2]
  refine ⟨hm v, ?_⟩
  rw [hm (.str "")]
  rw [show strToLower (jsToString (JSValue.str "")) = "" from rfl]
  rw [strIncludes_empty]

/-- C8 witness: an input filter on `name` applied with `"an"` matches both
`{name: "Anna"}` and `{name: "banana"}`, and the empty applied string matches
a row. -/
theorem c8_input_substring_witness :
    matchOne [⟨"input", "name", false⟩] [("name", JSValue.str "Anna")]
      "name" (JSValue.str "an") = .ok true ∧
    matchOne [⟨"input", "name", false⟩] [("name", JSValue.str "banana")]
      "name" (JSValue.str "an") = .ok true ∧
    matchOne [⟨"input", "name", false⟩] [("name", JSValue.str "Anna")]
      "name" (JSValue.str "") = .ok true := by
  refine ⟨?_, ?_, ?_⟩
  · exact ((c8_input_substring [⟨"input", "name", false⟩]
      [("name", JSValue.str "Anna")] "name" (JSValue.str "an")
      ⟨"input", "name", false⟩ (by decide) rfl).1).trans (by decide)
  · exact ((c8_input_substring [⟨"input", "name", false⟩]
      [("name", JSValue.str "banana")] "name" (JSValue.str "an")
      ⟨"input", "name", false⟩ (by decide) rfl).1).trans (by decide)
  · exact (c8_input_substring [⟨"input", "name", false⟩]
      [("name", JSValue.str "Anna")] "name" (JSValue.str "x")
      ⟨"input", "name", false⟩ (by decide) rfl).2

/-- C9: when the applied key's (first) filter definition has type `toggle`, a
row matches iff the truthiness (double-negation coercion) of the row field's
value equals the boolean coercion of the applied value. -/
theorem c9_toggle_truthiness (filters : List Filter) (item : Row)
    (key : String) (v : JSValue) (fd : Filter)
    (h1 : findFilter filters key = some fd) (h2 : fd.type = "toggle") :
    matchOne filters item key v =
      .ok (jsTruthy (rowGet item key) == jsTruthy v) ∧
    (matchOne filters item key v = .ok true ↔
      jsTruthy (rowGet item key) = jsTruthy v) := by
  have hm : matchOne filters item key v =
      .ok (jsTruthy (rowGet item key) == jsTruthy v) := by
    simp [matchOne, h1, h2]
  refine ⟨hm, ?_⟩
  rw [hm]
  simp

/-- C9 witness: a toggle filter on `active` applied with `true` matches
`{active: 1}` and `{active: "yes"}` and excludes `{active: 0}` and
`{active: ""}`. -/
theorem c9_toggle_truthiness_witness :
    matchOne [⟨"toggle", "active", false⟩] [("active", JSValue.num 1)]
      "active" (JSValue.bool true) = .ok true ∧
    matchOne [⟨"toggle", "active", false⟩] [("active", JSValue.str "yes")]
      "active" (JSValue.bool true) = .ok true ∧
    matchOne [⟨"toggle", "active", false⟩] [("active", JSValue.num 0)]
      "active" (JSValue.bool true) = .ok false ∧
    matchOne [⟨"toggle", "active", false⟩] [("active", JSValue.str "")]
      "active" (JSValue.bool true) = .ok false := by
  refine ⟨?_, ?_, ?_, ?_⟩ <;>
    exact ((c9_toggle_truthiness _ _ "active" (JSValue.bool true)
      ⟨"toggle", "active", false⟩ (by decide) rfl).1).trans (by decide)

/-- C2: for an applied key matching no filter definition's dataIndex (the
global-search fallback, e.g. the reserved key `"globalSearch"`), a row with a
string applied value matches iff SOME field of the row, stringified and
lower-cased, contains the applied value lower-cased; the scan ranges over
every field name of the row (no column definition, hence no visibility
attribute, is consulted). -/
theorem c2_globalSearch_fallback (filters : List Filter) (item : Row)
    (key : String) (s : String) (h : findFilter filters key = none) :
    matchOne filters item key (.str s) =
      .ok ((rowKeys item).any fun k =>
        strIncludes (strToLower (jsToString (rowGet item k))) (strToLower s)) ∧
    (matchOne filters item key (.str s) = .ok true ↔
      ∃ k ∈ rowKeys item,
        strIncludes (strToLower (jsToString (rowGet item k))) (strToLower s) = true) := by
  have hm : matchOne filters item key (.str s) =
      .ok ((rowKeys item).any fun k =>
        strIncludes (strToLower (jsToString (rowGet item k))) (strToLower s)) := by
    simp [matchOne, h, jsMethodToLower]
  refine ⟨hm, ?_⟩
  rw [hm]
  simp [List.any_eq_true]

/-- C2 witness: the key `"globalSearch"` matches no definition, and the scan
reaches the field `hidden` - a field whose column is marked invisible
(`visible: false`) - so the row matches `"ecr"` through it. -/
theorem c2_globalSearch_fallback_witness :
    matchOne [⟨"select", "status", false⟩]
      [("name", JSValue.str "Al"), ("hidden", JSValue.str "Secret")]
      "globalSearch" (JSValue.str "ecr") = .ok true ∧
    isVisible ⟨"h", "Hidden", "hidden", JSValue.bool false⟩ = false := by
  constructor
  · exact ((c2_globalSearch_fallback [⟨"select", "status", false⟩]
      [("name", JSValue.str "Al"), ("hidden", JSValue.str "Secret")]
      "globalSearch" "ecr" (by decide)).1).trans (by decide)
  · decide

/-- C6 (evaluation at the failing inputs): contrary to the claim that no core
operation can fail, (a) `handleFilterChange` of the first implementation
raises a `TypeError` for every key matching no filter definition - in
particular for the reserved key `"globalSearch"` used by the component's own
Global Search box - because it reads `.onFilterChange` off the `undefined`
lookup result; and (b) matching an unknown dataIndex with a BOOLEAN applied
value raises a `TypeError` in the global-search fallback, because the code
computes `appliedFilter.toLowerCase()` on the non-string value. -/
theorem c6_failure_eval :
    handleFilterChange [] [] (JSValue.str "x") "globalSearch" =
      .error "TypeError: cannot read onFilterChange of undefined" ∧
    matchOne [] [("name", JSValue.str "Al")] "q" (JSValue.bool true) =
      .error "TypeError: appliedFilter.toLowerCase is not a function" ∧
    applyFilters [] [("q", JSValue.bool true)] [[("name", JSValue.str "Al")]] =
      .error "TypeError: appliedFilter.toLowerCase is not a function" := by
  refine ⟨by decide, by decide, by decide⟩

/-- C10 counterexample: with `rowKey = "id"` set and the row
`{key: "k"}` (which lacks an `id` field), the code returns
`row["id"] = undefined` without ever falling back to `row["key"]`, while the
claim prescribes `row["key"] = "k"`; so `getRowKey` differs from the claimed
rule `specRowKey` at this input. -/
theorem c10_rowKey_cex :
    getRowKey (some "id") [("key", JSValue.str "k")] = JSValue.undefined ∧
    specRowKey (some "id") [("key", JSValue.str "k")] = JSValue.str "k" ∧
    getRowKey (some "id") [("key", JSValue.str "k")] ≠
      specRowKey (some "id") [("key", JSValue.str "k")] := by
  decide

/-- C10 amended: `getRowKey(row)` equals `row[rowKey]` whenever the `rowKey`
configuration is set (a non-empty string) - even when that field is absent, in
which case the result is `undefined`; when `rowKey` is unset (or empty), it
equals `row["key"]` when that value is truthy, and `null` otherwise
(including when the `key` field is present but holds a falsy value). -/
theorem c10_rowKey_amended (rk : Option String) (item : Row) :
    (optTruthy rk = true → getRowKey rk item = rowGet item (rk.getD "")) ∧
    (optTruthy rk = false → jsTruthy (rowGet item "key") = true →
      getRowKey rk item = rowGet item "key") ∧
    (optTruthy rk = false → jsTruthy (rowGet item "key") = false →
      getRowKey rk item = JSValue.null) :=
  ⟨fun h1 => by simp [getRowKey, h1],
   fun h1 h2 => by simp [getRowKey, h1, h2],
   fun h1 h2 => by simp [getRowKey, h1, h2]⟩

/-- C10 amended witness: with `rowKey = "id"` set, the key of
`{id: 7}` is `row["id"]`; and with `rowKey` unset, a row whose `key` field is
the falsy `""` yields `null`. -/
theorem c10_rowKey_amended_witness :
    getRowKey (some "id") [("id", JSValue.num 7)] =
      rowGet [("id", JSValue.num 7)] "id" ∧
    getRowKey none [("key", JSValue.str "")] = JSValue.null :=
  ⟨(c10_rowKey_amended (some "id") [("id", JSValue.num 7)]).1 (by decide),
   (c10_rowKey_amended none [("key", JSValue.str "")]).2.2 (by decide) (by decide)⟩

end ReactTable
